import Mathlib

/-!
# Verification of the CSV import/export service

Shallow embedding of `server/services/csv-import.js` (header mapping,
row validation/coercion, relation resolution, nested-record/component
assembly, batched import) together with proofs about the embedded
definitions.

Modelling conventions:
* JS objects that are used as ordered string-keyed maps (rows, header
  mappings, schema attribute maps) are association lists; key update
  keeps the key's first position (JS property-order semantics), delete
  removes the key.
* JS runtime primitives that the service calls but that are not part of
  the repository (`Number` NaN-ness, `parseFloat`, `new Date(..)`)
  are parameters, collected in `JsPrims`.  `parseInt(s, 10)` and the
  e-mail regular expression are simple enough to embed directly.
* The external entity store (`strapi.entityService`) is an oracle:
  `findMany` with `limit 1` is a function from a query filter to the
  optional first hit; `create`/`update` return `none` on success and
  `some message` when the underlying call throws.
-/

namespace CsvImport

/-- Association-list lookup: first entry with the given key (JS property read). -/
def alGet {α : Type} (l : List (String × α)) (k : String) : Option α :=
  match l with
  | [] => none
  | (k', v) :: rest => if k' = k then some v else alGet rest k

/-- Association-list update: JS property write — overwrite in place if the key
exists, otherwise append at the end (insertion order preserved). -/
def alSet {α : Type} (l : List (String × α)) (k : String) (v : α) : List (String × α) :=
  match l with
  | [] => [(k, v)]
  | (k', v') :: rest => if k' = k then (k', v) :: rest else (k', v') :: alSet rest k v

/-- Association-list delete: JS `delete obj[k]` (removes the key's entry). -/
def alDel {α : Type} (l : List (String × α)) (k : String) : List (String × α) :=
  match l with
  | [] => []
  | (k', v') :: rest => if k' = k then alDel rest k else (k', v') :: alDel rest k

/-- Split a character list on a separator character (JS
`String.prototype.split` with a single-character separator). -/
def splitOnCharAux (sep : Char) : List Char → List Char → List (List Char)
  | [], cur => [cur.reverse]
  | c :: rest, cur =>
    if c = sep then cur.reverse :: splitOnCharAux sep rest []
    else splitOnCharAux sep rest (c :: cur)

/-- JS `s.split(sep)` for a one-character separator. -/
def jsSplit (sep : Char) (s : String) : List String :=
  (splitOnCharAux sep s.toList []).map String.mk

/-- JS `s.trim()`: strip leading and trailing whitespace. -/
def jsTrim (s : String) : String :=
  String.mk (((s.toList.dropWhile Char.isWhitespace).reverse.dropWhile
    Char.isWhitespace).reverse)

/-- JS `s.toLowerCase()` (ASCII). -/
def jsToLower (s : String) : String :=
  String.mk (s.toList.map Char.toLower)

/-- JS `s.startsWith(pre)`. -/
def jsStartsWith (s pre : String) : Bool :=
  pre.toList.isPrefixOf s.toList

/-- JS `s.endsWith(suf)`. -/
def jsEndsWith (s suf : String) : Bool :=
  suf.toList.reverse.isPrefixOf s.toList.reverse

/-- JS `array.join(sep)`. -/
def joinSep (sep : String) : List String → String
  | [] => ""
  | [x] => x
  | x :: y :: rest => x ++ sep ++ joinSep sep (y :: rest)

/-- JS values that flow through the rows of this service. `vFloat` and the
ISO date string carry the canonical textual representation produced by the
external JS runtime. `vDotCapture` is the `{relationField, value}` object the
validator stashes under `__<field>_dotNotation`; `vCompCapture` the
subfield→raw-string object stashed under `__<field>_componentData`. -/
inductive Value where
  | vNull
  | vInt (n : Int)
  | vFloat (repr : String)
  | vBool (b : Bool)
  | vStr (s : String)
  | vIdList (ns : List Int)
  | vDotCapture (relationField : String) (value : String)
  | vCompCapture (m : List (String × String))
  deriving Repr, DecidableEq

/-- JS truthiness of a modelled value (objects and arrays are always truthy;
for `vFloat` the canonical representation "0" is the zero float). -/
def Value.truthy : Value → Bool
  | .vNull => false
  | .vInt n => n ≠ 0
  | .vFloat r => r ≠ "0"
  | .vBool b => b
  | .vStr s => s ≠ ""
  | .vIdList _ => true
  | .vDotCapture _ _ => true
  | .vCompCapture _ => true

/-- JS `String(v)` for the modelled values (objects stringify to
"[object Object]"; arrays join with commas). Only strings and numbers
reach this conversion in the import pipeline. -/
def Value.jsString : Value → String
  | .vNull => "null"
  | .vInt n => toString n
  | .vFloat r => r
  | .vBool b => cond b "true" "false"
  | .vStr s => s
  | .vIdList ns => joinSep "," (ns.map toString)
  | .vDotCapture _ _ => "[object Object]"
  | .vCompCapture _ => "[object Object]"

/-- A raw CSV row as delivered by the external parser: ordered map from
column name to cell string. -/
abbrev Row := List (String × String)

/-- A validated/processed row: ordered map from field name to JS value. -/
abbrev VRow := List (String × Value)

/-- One attribute descriptor of a content-type schema. Absent JS properties
are modelled by the defaults (`hasDefault` is the truthiness of
`attribute.default`; `enum := none` means no `enum` property). -/
structure Attr where
  type : String := "string"
  required : Bool := false
  unique : Bool := false
  hasDefault : Bool := false
  enum : Option (List String) := none
  relation : String := ""
  target : String := ""
  component : String := ""
  repeatable : Bool := false
  deriving Repr, DecidableEq

/-- Ordered attribute map of a schema (`contentType.attributes`). -/
abbrev AttrMap := List (String × Attr)

/-- The schema registry `strapi.contentTypes`, reduced to what the service
reads from it: uid → attribute map. -/
abbrev Registry := List (String × AttrMap)

/-- External JS runtime primitives used by the service (collaborators,
not repository code). -/
structure JsPrims where
  /-- `isNaN(Number(s))`. -/
  numberNaN : String → Bool
  /-- `parseFloat(s)`: canonical representation of the result, `none` iff NaN. -/
  parseFloatRepr : String → Option String
  /-- `new Date(s).toISOString()`, `none` iff the date is invalid. -/
  dateISO : String → Option String

/-- `c` is an ASCII decimal digit. -/
def isDigitChar (c : Char) : Bool := '0' ≤ c ∧ c ≤ '9'

/-- Numeric value of a digit list, most significant first. -/
def digitsToNat (cs : List Char) : Nat :=
  cs.foldl (fun n c => n * 10 + (c.toNat - 48)) 0

/-- JS `parseInt(s, 10)`: skip leading whitespace, optional sign, then the
longest prefix of decimal digits; NaN (`none`) when no digit follows. -/
def jsParseInt10 (s : String) : Option Int :=
  let cs := s.toList.dropWhile Char.isWhitespace
  let signAndRest : Int × List Char :=
    match cs with
    | '-' :: rest => (-1, rest)
    | '+' :: rest => (1, rest)
    | _ => (1, cs)
  let ds := signAndRest.2.takeWhile isDigitChar
  if ds.isEmpty then none else some (signAndRest.1 * (digitsToNat ds : Int))

/-- The e-mail test regex of the validator: `^[^\s@]+@[^\s@]+\.[^\s@]+$` —
exactly one `@`; both sides non-empty and whitespace-free; the domain part
contains a `.` that is neither its first nor its last character. -/
def emailRegexTest (s : String) : Bool :=
  match jsSplit '@' s with
  | [lp, dom] =>
    (!lp.toList.isEmpty) && lp.toList.all (fun c => !c.isWhitespace) &&
    (!dom.toList.isEmpty) && dom.toList.all (fun c => !c.isWhitespace) &&
    ((dom.toList.drop 1).dropLast.contains '.')
  | _ => false

/-- One entry of the header mapping built by `parseHeaderMapping`.
Absent JS properties are the defaults ("" / false). -/
structure HeaderMapping where
  field : String
  relationField : String := ""
  componentField : String := ""
  isDotted : Bool := false
  isComponent : Bool := false
  isValid : Bool := false
  componentName : String := ""
  deriving Repr, DecidableEq

/-- `parseHeaderMapping(csvHeaders, attributes)`: classify each CSV header as a
plain field, a relation dot-notation header (`relation.field`), a component
dot-notation header (`component.sub[...]`), or invalid. -/
def parseHeaderMapping (csvHeaders : List String) (attributes : AttrMap) :
    List (String × HeaderMapping) :=
  csvHeaders.foldl
    (fun acc header =>
      if header.toList.contains '.' then
        match jsSplit '.' header with
        | [] => acc
        | fieldName :: restParts =>
          match alGet attributes fieldName with
          | some attrDesc =>
            if attrDesc.type = "relation" then
              alSet acc header
                { field := fieldName,
                  relationField := restParts.headD "",
                  isDotted := true, isValid := true }
            else if attrDesc.type = "component" then
              alSet acc header
                { field := fieldName,
                  componentField := joinSep "." restParts,
                  isDotted := true, isComponent := true, isValid := true,
                  componentName := attrDesc.component }
            else
              alSet acc header { field := header, isDotted := true, isValid := false }
          | none => alSet acc header { field := header, isDotted := true, isValid := false }
      else
        match alGet attributes header with
        | some _ => alSet acc header { field := header, isDotted := false, isValid := true }
        | none => alSet acc header { field := header, isDotted := false, isValid := false })
    []

/-- Comma-split a raw cell and trim every segment
(`value.split(',').map(v => v.trim())`). -/
def splitTrim (s : String) : List String := (jsSplit ',' s).map jsTrim

/-- `parseComponentRows(componentData)`: expand a repeatable component capture.
Every captured subfield value is comma-split; the longest split length
determines the generated row count; row `i` collects the `i`-th segment of
each subfield when it exists and is non-empty; rows with no data are dropped. -/
def parseComponentRows (componentData : List (String × String)) :
    List (List (String × String)) :=
  if componentData = [] then []
  else
    let parsedFields := componentData.map (fun kv => (kv.1, splitTrim kv.2))
    let maxRows := parsedFields.foldl (fun m kv => max m kv.2.length) 1
    (List.range maxRows).filterMap (fun i =>
      let rowData := parsedFields.foldl
        (fun acc kv =>
          let value := kv.2.getD i ""
          if value ≠ "" then alSet acc kv.1 value else acc)
        []
      if rowData ≠ [] then some rowData else none)

/-- `convertComponentFieldValue(value, attribute)`: type-directed coercion of a
single component subfield; empty input and failed numeric/date parses yield
JS `null` (`vNull`); a boolean subfield is `true` exactly for the lowercased
tokens true/1/yes and `false` for everything else. -/
def convertComponentFieldValue (p : JsPrims) (value : String) (attrDesc : Attr) : Value :=
  if value = "" then .vNull
  else
    match attrDesc.type with
    | "integer" | "biginteger" =>
      match jsParseInt10 value with
      | none => .vNull
      | some n => .vInt n
    | "decimal" | "float" =>
      match p.parseFloatRepr value with
      | none => .vNull
      | some r => .vFloat r
    | "boolean" => .vBool (jsToLower value ∈ (["true", "1", "yes"] : List String))
    | "date" | "datetime" | "time" =>
      match p.dateISO value with
      | none => .vNull
      | some iso => .vStr iso
    | _ => .vStr value

/-- The three coercion token lists of the boolean case. -/
def boolTokens : List String := ["true", "false", "1", "0", "yes", "no"]

/-- Tokens that coerce to `true`. -/
def trueTokens : List String := ["true", "1", "yes"]

/-- Processing of one `csvHeader → value` cell inside the row loop of
`validateCsvData` (lines 166-267 of the service): dot-notation side-channel
capture, then type-directed coercion of present values, else the
required-field check.  The accumulator is `(validatedRow, rowErrors)`. -/
def processCell (p : JsPrims) (attributes : AttrMap)
    (headerMapping : List (String × HeaderMapping)) (index : Nat)
    (acc : VRow × List String) (cell : String × String) : VRow × List String :=
  let validatedRow := acc.1
  let rowErrors := acc.2
  let csvHeader := cell.1
  let value := cell.2
  match alGet headerMapping csvHeader with
  | none => acc
  | some mapping =>
    if !mapping.isValid then acc
    else
      let fieldName := mapping.field
      match alGet attributes fieldName with
      | none => acc  -- unreachable: every valid mapping names a declared attribute
      | some attrDesc =>
        -- dot-notation side channels, written before the value-present check
        let validatedRow :=
          if mapping.isDotted then
            if mapping.isComponent then
              let cur :=
                match alGet validatedRow ("__" ++ fieldName ++ "_componentData") with
                | some (Value.vCompCapture m) => m
                | _ => []
              alSet validatedRow ("__" ++ fieldName ++ "_componentData")
                (Value.vCompCapture (alSet cur mapping.componentField value))
            else
              alSet validatedRow ("__" ++ fieldName ++ "_dotNotation")
                (Value.vDotCapture mapping.relationField value)
          else validatedRow
        if value ≠ "" then
          match attrDesc.type with
          | "integer" | "biginteger" =>
            match jsParseInt10 value with
            | none =>
              (validatedRow, rowErrors ++
                ["Row " ++ toString (index + 1) ++ ": \"" ++ fieldName ++ "\" must be a number"])
            | some n => (alSet validatedRow fieldName (.vInt n), rowErrors)
          | "decimal" | "float" =>
            match p.parseFloatRepr value with
            | none =>
              (validatedRow, rowErrors ++
                ["Row " ++ toString (index + 1) ++ ": \"" ++ fieldName ++
                  "\" must be a decimal number"])
            | some r => (alSet validatedRow fieldName (.vFloat r), rowErrors)
          | "boolean" =>
            let boolVal := jsToLower value
            if boolVal ∈ boolTokens then
              (alSet validatedRow fieldName (.vBool (boolVal ∈ trueTokens)), rowErrors)
            else
              (validatedRow, rowErrors ++
                ["Row " ++ toString (index + 1) ++ ": \"" ++ fieldName ++
                  "\" must be true/false, 1/0, or yes/no"])
          | "date" | "datetime" | "time" =>
            match p.dateISO value with
            | none =>
              (validatedRow, rowErrors ++
                ["Row " ++ toString (index + 1) ++ ": \"" ++ fieldName ++
                  "\" must be a valid date"])
            | some iso => (alSet validatedRow fieldName (.vStr iso), rowErrors)
          | "email" =>
            if !emailRegexTest value then
              (validatedRow, rowErrors ++
                ["Row " ++ toString (index + 1) ++ ": \"" ++ fieldName ++
                  "\" must be a valid email"])
            else (alSet validatedRow fieldName (.vStr value), rowErrors)
          | "enumeration" =>
            match attrDesc.enum with
            | some enumVals =>
              if value ∉ enumVals then
                (validatedRow, rowErrors ++
                  ["Row " ++ toString (index + 1) ++ ": \"" ++ fieldName ++
                    "\" must be one of: " ++ joinSep ", " enumVals])
              else (alSet validatedRow fieldName (.vStr value), rowErrors)
            | none => (alSet validatedRow fieldName (.vStr value), rowErrors)
          | "relation" =>
            -- raw relation values are stored for later resolution
            (alSet validatedRow fieldName (.vStr value), rowErrors)
          | "component" =>
            -- component values arrive only via dot notation, no direct assignment
            (validatedRow, rowErrors)
          | _ => (alSet validatedRow fieldName (.vStr value), rowErrors)
        else
          if attrDesc.required && !attrDesc.hasDefault && !mapping.isDotted then
            (validatedRow, rowErrors ++
              ["Row " ++ toString (index + 1) ++ ": Required field \"" ++ fieldName ++
                "\" is missing"])
          else (validatedRow, rowErrors)

/-- The per-row body of `validateCsvData`'s `data.map`: fold `processCell`
over the row's own keys. -/
def validateRow (p : JsPrims) (attributes : AttrMap)
    (headerMapping : List (String × HeaderMapping)) (index : Nat) (row : Row) :
    VRow × List String :=
  row.foldl (processCell p attributes headerMapping index) ([], [])

/-- Per-relation-field info collected by `validateRelationFieldUniqueness`. -/
structure RelFieldInfo where
  csvHeader : String
  relationField : String
  attrDesc : Attr
  deriving Repr, DecidableEq

/-- `validateRelationFieldUniqueness(data, headerMapping, attributes)`:
for every relation dot-notation header, the referenced target field must
exist on the target schema and be declared unique.  Returns
`(errors, warnings)`. -/
def validateRelationFieldUniqueness (registry : Registry)
    (headerMapping : List (String × HeaderMapping)) (attributes : AttrMap) :
    List String × List String :=
  let relationFields : List (String × RelFieldInfo) :=
    headerMapping.foldl
      (fun acc hm =>
        let csvHeader := hm.1
        let mapping := hm.2
        if mapping.isValid && !mapping.isComponent && mapping.isDotted then
          match alGet attributes mapping.field with
          | some attrDesc =>
            if attrDesc.type = "relation" then
              alSet acc mapping.field
                ⟨csvHeader, mapping.relationField, attrDesc⟩
            else acc
          | none => acc
        else acc)
      []
  relationFields.foldl
    (fun acc fi =>
      let fieldName := fi.1
      let info := fi.2
      let targetContentType := info.attrDesc.target
      let searchField := info.relationField
      if targetContentType = "" || searchField = "" then acc
      else
        match alGet registry targetContentType with
        | none =>
          (acc.1, acc.2 ++
            ["Target content type \"" ++ targetContentType ++
              "\" not found for relation field \"" ++ fieldName ++ "\""])
        | some targetSchema =>
          match alGet targetSchema searchField with
          | none =>
            (acc.1 ++
              ["Target field \"" ++ searchField ++ "\" not found in content type \"" ++
                targetContentType ++ "\" for relation field \"" ++ fieldName ++ "." ++
                searchField ++ "\""], acc.2)
          | some targetAttr =>
            if !targetAttr.unique then
              (acc.1 ++
                ["Field \"" ++ searchField ++ "\" in content type \"" ++
                  targetContentType ++ "\" must be set as unique for relation field \"" ++
                  fieldName ++ "." ++ searchField ++ "\""], acc.2)
            else acc)
    ([], [])

/-- Names of the attributes that are required and have no (truthy) default. -/
def requiredFieldNames (attributes : AttrMap) : List String :=
  (attributes.filter fun kv => kv.2.required && !kv.2.hasDefault).map Prod.fst

/-- Required fields that no header mapping targets. -/
def missingRequiredFields (csvHeaders : List String) (attributes : AttrMap) : List String :=
  let mappedFieldNames := (parseHeaderMapping csvHeaders attributes).map (fun kv => kv.2.field)
  (requiredFieldNames attributes).filter (fun f => f ∉ mappedFieldNames)

/-- Headers with no valid, non-dotted mapping (reported as an aggregated warning). -/
def unknownFields (csvHeaders : List String) (attributes : AttrMap) : List String :=
  let headerMapping := parseHeaderMapping csvHeaders attributes
  csvHeaders.filter (fun header =>
    match alGet headerMapping header with
    | none => true
    | some mapping => !mapping.isValid && !mapping.isDotted)

/-- Per-row outcome record (`{data, errors, originalRow}`). -/
structure RowOutcome where
  data : VRow
  errors : List String
  originalRow : Row
  deriving Repr, DecidableEq

/-- Result of `validateCsvData`. In the empty-input early return the service
omits `invalidRows` entirely; we model that absent property as `[]`. -/
structure ValidationOutcome where
  errors : List String
  warnings : List String
  validData : List VRow
  invalidRows : List RowOutcome
  deriving Repr, DecidableEq

/-- `validateCsvData(data, contentType)`: file-level checks (empty input,
missing required fields, unknown headers, relation-field uniqueness) and the
per-row validation loop. -/
def validateCsvData (p : JsPrims) (registry : Registry) (data : List Row)
    (attributes : AttrMap) : ValidationOutcome :=
  match data with
  | [] =>
    { errors := ["CSV file is empty or invalid"], warnings := [],
      validData := [], invalidRows := [] }
  | firstRow :: _ =>
    let csvHeaders := firstRow.map Prod.fst
    let headerMapping := parseHeaderMapping csvHeaders attributes
    let missingRequired := missingRequiredFields csvHeaders attributes
    let fileErrors :=
      if missingRequired ≠ [] then
        ["Missing required fields: " ++ joinSep ", " missingRequired]
      else []
    let unknowns := unknownFields csvHeaders attributes
    let fileWarnings :=
      if unknowns ≠ [] then
        ["Unknown fields (will be ignored): " ++ joinSep ", " unknowns]
      else []
    let relUniq := validateRelationFieldUniqueness registry headerMapping attributes
    let rows := data.enum.map (fun iz =>
      let vr := validateRow p attributes headerMapping iz.1 iz.2
      ({ data := vr.1, errors := vr.2, originalRow := iz.2 } : RowOutcome))
    { errors := (fileErrors ++ relUniq.1) ++ (rows.map (·.errors)).flatten,
      warnings := fileWarnings ++ relUniq.2,
      validData := (rows.filter (fun r => r.errors.isEmpty)).map (·.data),
      invalidRows := rows.filter (fun r => !r.errors.isEmpty) }

/-- A `findMany(..., limit: 1)` query filter issued by the service.
`byId raw` stands for `filters: { id: Number(raw) }` (the oracle receives the
raw string; `Number` is deterministic, so this is an injective reindexing of
the real query). `eqi`/`containsi` are the case-insensitive exact and
contains operators; `eq` is the plain exact-match filter of
`findExistingRecord`. -/
inductive Filter where
  | byId (raw : String)
  | eqi (field : String) (v : String)
  | containsi (field : String) (v : String)
  | eq (field : String) (v : Value)
  deriving Repr, DecidableEq

/-- The entity returned by the store; the service only ever reads `.id`. -/
structure Entity where
  id : Int
  deriving Repr, DecidableEq

/-- `strapi.entityService.findMany` with `limit 1` as an oracle: `none` models
both an empty result and a thrown lookup error (every caller catches lookup
errors and treats them as "not found"). -/
abbrev Store := String → Filter → Option Entity

/-- The fixed list of common human-readable candidate fields. -/
def commonFields : List String := ["name", "title", "slug", "displayName", "label", "country"]

/-- The common-field scan: case-insensitive exact match on each candidate
field in order, returning the first hit; also returns the trace of issued
queries (instrumentation — the second component records the oracle calls). -/
def scanCommonT (store : Store) (target value : String) :
    List String → Option Entity × List Filter
  | [] => (none, [])
  | f :: fs =>
    match store target (.eqi f value) with
    | some e => (some e, [.eqi f value])
    | none =>
      let rest := scanCommonT store target value fs
      (rest.1, .eqi f value :: rest.2)

/-- Steps 2-4 of `findRelatedEntity` (the part after the explicit-subfield
attempt): numeric identifier lookup, then the common-field scan, then a
single contains fallback on the first candidate field.  Returns the result
together with the trace of issued queries. -/
def findRelatedEntityRestT (p : JsPrims) (registry : Registry) (store : Store)
    (target value : String) : Option Entity × List Filter :=
  let numericOk := !p.numberNaN value && (jsParseInt10 value).isSome
  let idQueries : List Filter := if numericOk then [.byId value] else []
  match (if numericOk then store target (.byId value) else none) with
  | some e => (some e, idQueries)
  | none =>
    match alGet registry target with
    | none => (none, idQueries)
    | some schema =>
      let searchFields := commonFields.filter (fun f =>
        match alGet schema f with
        | some a => a.type = "string"
        | none => false)
      let scanned := scanCommonT store target value searchFields
      match scanned.1 with
      | some e => (some e, idQueries ++ scanned.2)
      | none =>
        match searchFields with
        | [] => (none, idQueries ++ scanned.2)
        | f0 :: _ =>
          (store target (.containsi f0 value), idQueries ++ scanned.2 ++ [.containsi f0 value])

/-- `findRelatedEntity(targetContentType, value, searchField)` with query
trace.  `searchField = ""` models the absent (`null`) search field.  When a
declared explicit subfield is given, exact then contains matches on it are
attempted first; on a miss the code falls through to
`findRelatedEntityRestT`. -/
def findRelatedEntityT (p : JsPrims) (registry : Registry) (store : Store)
    (target value searchField : String) : Option Entity × List Filter :=
  let declared :=
    searchField ≠ "" &&
      (match alGet registry target with
       | some schema => (alGet schema searchField).isSome
       | none => false)
  if declared then
    match store target (.eqi searchField value) with
    | some e => (some e, [.eqi searchField value])
    | none =>
      match store target (.containsi searchField value) with
      | some e => (some e, [.eqi searchField value, .containsi searchField value])
      | none =>
        let rest := findRelatedEntityRestT p registry store target value
        (rest.1, .eqi searchField value :: .containsi searchField value :: rest.2)
  else
    findRelatedEntityRestT p registry store target value

/-- `findRelatedEntity` proper (the trace discarded). -/
def findRelatedEntity (p : JsPrims) (registry : Registry) (store : Store)
    (target value searchField : String) : Option Entity :=
  (findRelatedEntityT p registry store target value searchField).1

/-- The determination of the raw relation value and search field for one
relation attribute (lines 510-525 of the service): prefer the truthy
dot-notation capture, else the truthy plain field value; `none` means the
attribute is skipped. -/
def relationRawValue (row : VRow) (fieldName : String) : Option (String × String) :=
  let plain : Option (String × String) :=
    match alGet row fieldName with
    | some (Value.vStr s) => if s ≠ "" then some (s, "") else none
    | _ => none  -- only raw strings reach relation fields from validation
  match alGet row ("__" ++ fieldName ++ "_dotNotation") with
  | some v =>
    if v.truthy then
      match v with
      | Value.vDotCapture sf value => some (value, sf)
      | _ => none  -- unreachable: the dot-notation key only ever holds captures
    else plain
  | none => plain

/-- Processing of one relation attribute of one row (the body of the
per-field loop of `processRelations`): single relations get the resolved id
or are deleted; multi relations comma-split, resolve each segment, keep the
found ids in order, and are deleted when nothing resolved. -/
def processRelationAttr (p : JsPrims) (registry : Registry) (store : Store)
    (row : VRow) (fieldName : String) (attrDesc : Attr) (processedRow : VRow) : VRow :=
  match relationRawValue row fieldName with
  | none => processedRow
  | some (relationValue, searchField) =>
    if attrDesc.relation = "oneToOne" || attrDesc.relation = "manyToOne" then
      match findRelatedEntity p registry store attrDesc.target relationValue searchField with
      | some e => alSet processedRow fieldName (.vInt e.id)
      | none => alDel processedRow fieldName
    else if attrDesc.relation = "oneToMany" || attrDesc.relation = "manyToMany" then
      let values := splitTrim relationValue
      let relatedEntities := values.filterMap (fun v =>
        findRelatedEntity p registry store attrDesc.target v searchField)
      if relatedEntities ≠ [] then
        alSet processedRow fieldName (.vIdList (relatedEntities.map (·.id)))
      else alDel processedRow fieldName
    else processedRow  -- other relation kinds fall through the switch

/-- Removal of the temporary `__<field>_dotNotation` keys at the end of the
per-row loop of `processRelations`. -/
def cleanupDotKeys (r : VRow) : VRow :=
  r.filter (fun kv => !(jsStartsWith kv.1 "__" && jsEndsWith kv.1 "_dotNotation"))

/-- Per-row body of `processRelations`: start from a copy of the row, process
every relation attribute of the schema in declaration order, then delete the
temporary capture keys. -/
def processRelationsRow (p : JsPrims) (registry : Registry) (store : Store)
    (attributes : AttrMap) (row : VRow) : VRow :=
  cleanupDotKeys
    (attributes.foldl
      (fun pr fa =>
        if fa.2.type = "relation" then
          processRelationAttr p registry store row fa.1 fa.2 pr
        else pr)
      row)

/-- `processRelations(data, contentType)`. -/
def processRelations (p : JsPrims) (registry : Registry) (store : Store)
    (data : List VRow) (attributes : AttrMap) : List VRow :=
  data.map (processRelationsRow p registry store attributes)

/-- `processComponentData(componentData, componentAttributes)`: coerce each
captured subfield per the component schema (relations inside components are
resolved through `findRelatedEntity`, with a deeper dotted subpath as the
explicit search field); returns `none` when nothing was populated. -/
def processComponentData (p : JsPrims) (registry : Registry) (store : Store)
    (componentData : List (String × String)) (componentAttributes : AttrMap) :
    Option VRow :=
  let processed := componentData.foldl
    (fun acc kv =>
      let fieldKey := kv.1
      let value := kv.2
      if value = "" then acc
      else
        match jsSplit '.' fieldKey with
        | [] => acc  -- unreachable: splitOn never returns an empty list
        | actualFieldName :: restParts =>
          let searchField := restParts.headD ""
          match alGet componentAttributes actualFieldName with
          | none => acc
          | some attrDesc =>
            if attrDesc.type = "relation" then
              match findRelatedEntity p registry store attrDesc.target value searchField with
              | some e => alSet acc actualFieldName (.vInt e.id)
              | none => acc
            else
              alSet acc actualFieldName (convertComponentFieldValue p value attrDesc))
    []
  if processed = [] then none else some processed

/-- An uploaded media file as recorded in a media field mapping (`name`
models `file.name || file.originalName`, which coincide at construction). -/
structure MediaFile where
  id : Int
  name : String
  deriving Repr, DecidableEq

/-- One `{field, uploadedFiles, matchField}` mapping produced by the media
ZIP processing. -/
structure MediaFieldMapping where
  field : String
  uploadedFiles : List MediaFile
  matchField : String
  deriving Repr, DecidableEq

/-- `getFileExtension(filename)`: last `.`-separated component, lowercased. -/
def getFileExtension (filename : String) : String :=
  jsToLower ((jsSplit '.' filename).getLastD "")

/-- The numbered-suffix pattern `^<stem>_\d+\.` tested on an
already-lowercased filename. -/
def numberedPatternTest (stem fileNameLower : String) : Bool :=
  if jsStartsWith fileNameLower (stem ++ "_") then
    let rest := fileNameLower.toList.drop (stem.toList.length + 1)
    let ds := rest.takeWhile isDigitChar
    !ds.isEmpty && (rest.drop ds.length).take 1 = ['.']
  else false

/-- The OR of the three filename patterns of `processMediaFields`. -/
def mediaFileMatches (matchValueLower : String) (file : MediaFile) : Bool :=
  let fileNameLower := jsToLower file.name
  let exactMatch := fileNameLower = matchValueLower ++ "." ++ getFileExtension file.name
  let numberedMatch := numberedPatternTest matchValueLower fileNameLower
  let startsWithMatch := jsStartsWith fileNameLower matchValueLower
  exactMatch || numberedMatch || startsWithMatch

/-- Stable insertion of `x` after every earlier element `y` with `le y x`
(the standard stable insertion step). -/
def insertByLe {α : Type} (le : α → α → Bool) (x : α) : List α → List α
  | [] => [x]
  | y :: ys => if le y x then y :: insertByLe le x ys else x :: y :: ys

/-- Stable sort by `le` (JS `Array.prototype.sort` is stable; `localeCompare`
on lowercased ASCII filenames is the ordinary string order). -/
def stableSortBy {α : Type} (le : α → α → Bool) (l : List α) : List α :=
  l.foldr (insertByLe le) []

/-- `processMediaFields(csvItem, mediaFieldMappings, matchField)`: for each
mapping, match the uploaded files against the row's match value by the three
filename patterns, sort the survivors by lowercased name, and set the target
field to their ids; no match leaves the row untouched. -/
def processMediaFields (csvItem : VRow) (mediaFieldMappings : List MediaFieldMapping)
    (matchField : String) : VRow :=
  mediaFieldMappings.foldl
    (fun item mapping =>
      let key := if matchField ≠ "" then matchField else mapping.matchField
      match alGet item key with
      | none => item
      | some matchValue =>
        if !matchValue.truthy || mapping.uploadedFiles.isEmpty then item
        else
          let matchValueLower := jsToLower matchValue.jsString
          let matchingFiles := mapping.uploadedFiles.filter (mediaFileMatches matchValueLower)
          if matchingFiles.isEmpty then item
          else
            let sortedFiles := stableSortBy
              (fun a b => decide ((jsToLower a.name).data ≤ (jsToLower b.name).data)) matchingFiles
            alSet item mapping.field (.vIdList (sortedFiles.map (·.id))))
    csvItem

/-- The persistence side of the entity store: `findMany` may throw
(`Except.error message`) or return the optional first hit; `create`/`update`
return `none` on success or `some message` when the underlying call throws. -/
structure EntityStore where
  findMany : String → Filter → Except String (Option Entity)
  create : String → VRow → Option String
  update : String → Int → VRow → Option String

/-- `findExistingRecord(contentTypeUid, fieldName, fieldValue)`: exact-match
lookup, first hit or `null`; a thrown lookup error is caught inside this
function (logged only) and likewise yields `null`. -/
def findExistingRecord (store : EntityStore) (uid fieldName : String)
    (fieldValue : Value) : Option Entity :=
  match store.findMany uid (.eq fieldName fieldValue) with
  | .ok r => r
  | .error _ => none

/-- Options of `importData` with the service's defaults. -/
structure ImportOptions where
  upsert : Bool := false
  batchSize : Nat := 100
  upsertField : String := "id"
  mediaFieldMappings : List MediaFieldMapping := []

/-- One persistence-store invocation (instrumentation: the trace of oracle
calls issued by `importData`, in order). -/
inductive StoreCall where
  | findCall (uid field : String) (v : Value)
  | createCall (uid : String) (data : VRow)
  | updateCall (uid : String) (id : Int) (data : VRow)
  deriving Repr, DecidableEq

/-- The accumulating `results` object of `importData`. -/
structure ImportResults where
  created : Nat := 0
  updated : Nat := 0
  errors : List (VRow × String) := []
  deriving Repr, DecidableEq

/-- Processing of one item inside the batch loop of `importData`: optional
media-field attachment, then upsert-or-create; any thrown persistence error
is recorded as `{row, error}` and processing continues. The second
accumulator component is the trace of issued store calls. -/
def processItem (store : EntityStore) (uid : String) (opts : ImportOptions)
    (acc : ImportResults × List StoreCall) (item0 : VRow) :
    ImportResults × List StoreCall :=
  let item :=
    if opts.mediaFieldMappings ≠ [] then
      processMediaFields item0 opts.mediaFieldMappings opts.upsertField
    else item0
  let res := acc.1
  let upsertVal := (alGet item opts.upsertField).getD .vNull
  if opts.upsert && upsertVal.truthy then
    let tr := acc.2 ++ [StoreCall.findCall uid opts.upsertField upsertVal]
    match findExistingRecord store uid opts.upsertField upsertVal with
    | some existing =>
      match store.update uid existing.id item with
      | none =>
        ({ res with updated := res.updated + 1 },
          tr ++ [StoreCall.updateCall uid existing.id item])
      | some msg =>
        ({ res with errors := res.errors ++ [(item, msg)] },
          tr ++ [StoreCall.updateCall uid existing.id item])
    | none =>
      match store.create uid item with
      | none =>
        ({ res with created := res.created + 1 }, tr ++ [StoreCall.createCall uid item])
      | some msg =>
        ({ res with errors := res.errors ++ [(item, msg)] },
          tr ++ [StoreCall.createCall uid item])
  else
    match store.create uid item with
    | none =>
      ({ res with created := res.created + 1 }, acc.2 ++ [StoreCall.createCall uid item])
    | some msg =>
      ({ res with errors := res.errors ++ [(item, msg)] },
        acc.2 ++ [StoreCall.createCall uid item])

/-- Fuelled chunking of a list into slices of `b` elements
(`for (let i = 0; i < n; i += batchSize) slice(i, i + batchSize)`); the fuel
(the list length) suffices for every positive `b`. -/
def chunksAux {α : Type} (b : Nat) : Nat → List α → List (List α)
  | 0, _ => []
  | _, [] => []
  | fuel + 1, x :: xs => (x :: xs).take b :: chunksAux b fuel ((x :: xs).drop b)

/-- The batch slices of `importData`'s outer loop. -/
def chunks {α : Type} (b : Nat) (l : List α) : List (List α) :=
  chunksAux b l.length l

/-- `importData(contentTypeUid, validData, options)`: iterate the batch
slices, processing every item in input order; returns the results object and
the trace of issued store calls. -/
def importData (store : EntityStore) (uid : String) (validData : List VRow)
    (opts : ImportOptions) : ImportResults × List StoreCall :=
  (chunks opts.batchSize validData).foldl
    (fun acc batch => batch.foldl (processItem store uid opts) acc)
    ({}, [])

/-! ## Specification-side definitions (for refinement-style comparisons) -/

/-- Entry `i` of a repeatable nested-record expansion, as the specification
words it: the `i`-th comma-segment of each subfield, omitting a subfield
whose own split is shorter, treating empty-string segments as absent. -/
def componentEntrySpec (parsedFields : List (String × List String)) (i : Nat) :
    List (String × String) :=
  parsedFields.filterMap (fun kv =>
    match kv.2[i]? with
    | some seg => if seg = "" then none else some (kv.1, seg)
    | none => none)

/-- `parseComponentRows` as the specification words it: the longest split
length determines the number of generated entries; entries with no populated
subfields are dropped. -/
def parseComponentRowsSpec (componentData : List (String × String)) :
    List (List (String × String)) :=
  if componentData = [] then []
  else
    let parsedFields := componentData.map (fun kv => (kv.1, splitTrim kv.2))
    let longest := (parsedFields.map (fun kv => kv.2.length)).foldl max 1
    ((List.range longest).map (componentEntrySpec parsedFields)).filter (· ≠ [])

/-- The media-processed form of a row, as `importData` computes it before
persistence. -/
def processedImportItem (opts : ImportOptions) (item0 : VRow) : VRow :=
  if opts.mediaFieldMappings ≠ [] then
    processMediaFields item0 opts.mediaFieldMappings opts.upsertField
  else item0

/-- The fate of one (already media-processed) row at the persistence step. -/
inductive RowFate where
  | createdRow
  | updatedRow
  | failedRow (msg : String)
  deriving Repr, DecidableEq

/-- The persistence outcome of one row, mirroring the upsert-or-create
decision tree of `importData`. -/
def rowFate (store : EntityStore) (uid : String) (opts : ImportOptions)
    (item : VRow) : RowFate :=
  let upsertVal := (alGet item opts.upsertField).getD .vNull
  if opts.upsert && upsertVal.truthy then
    match findExistingRecord store uid opts.upsertField upsertVal with
    | some existing =>
      match store.update uid existing.id item with
      | none => .updatedRow
      | some msg => .failedRow msg
    | none =>
      match store.create uid item with
      | none => .createdRow
      | some msg => .failedRow msg
  else
    match store.create uid item with
    | none => .createdRow
    | some msg => .failedRow msg

/-- The import outcome as the specification describes it: per-row fates
aggregated in input order — created/updated counts and the ordered error
list of the rows whose persistence call threw. -/
def importSpec (store : EntityStore) (uid : String) (opts : ImportOptions)
    (validData : List VRow) : ImportResults :=
  let items := validData.map (processedImportItem opts)
  { created := (items.map (rowFate store uid opts)).count .createdRow,
    updated := (items.map (rowFate store uid opts)).count .updatedRow,
    errors := items.filterMap (fun item =>
      match rowFate store uid opts item with
      | .failedRow msg => some (item, msg)
      | _ => none) }

/-! ## Concrete fixtures for witnesses and counterexamples -/

/-- A concrete instantiation of the external JS primitives, used for
evaluating the embedding at concrete inputs. -/
def p0 : JsPrims :=
  { numberNaN := fun s => (jsParseInt10 s).isNone,
    parseFloatRepr := fun _ => none,
    dateISO := fun _ => none }

/-- A plain string attribute. -/
def strAttr : Attr := {}

/-- A required string attribute without default. -/
def strAttrReq : Attr := { required := true }

/-- A unique string attribute. -/
def strAttrUnique : Attr := { unique := true }

/-- A boolean attribute. -/
def boolAttr : Attr := { type := "boolean" }

/-- The country schema of the test fixtures: required `name`, unique `code`. -/
def countryAttrs : AttrMap := [("name", strAttrReq), ("code", strAttrUnique)]

/-- A company-like schema with a required name and a boolean flag. -/
def companyAttrs : AttrMap := [("name", strAttrReq), ("active", boolAttr)]

/-- A schema with a required name and a many-to-one relation to country. -/
def companyRelAttrs : AttrMap :=
  [("name", strAttrReq),
   ("country", { type := "relation", relation := "manyToOne",
                 target := "api::country.country" })]

/-- A schema with a single many-to-many `tags` relation. -/
def tagsAttrs : AttrMap :=
  [("tags", { type := "relation", relation := "manyToMany", target := "api::tag.tag" })]

/-- Registry fixture: the country content type (unique `name`). -/
def registryCountry : Registry := [("api::country.country", [("name", strAttrUnique)])]

/-- Registry fixture: the tag content type (string `name`, unique `code`). -/
def registryTag : Registry := [("api::tag.tag", [("code", strAttrUnique), ("name", strAttr)])]

/-- Store fixture for the multi-relation scenario: `tag1` resolves to entity
1 and `tag2` to entity 2 by case-insensitive name match. -/
def storeTags : Store := fun uid f =>
  if uid = "api::tag.tag" then
    match f with
    | .eqi fld v =>
      if fld = "name" && v = "tag1" then some ⟨1⟩
      else if fld = "name" && v = "tag2" then some ⟨2⟩
      else none
    | _ => none
  else none

/-- Store fixture for the lookup-priority scenarios: identifier lookup on the
raw value "7" yields entity 7, while a name match would yield entity 99; all
subfield (`code`) matches miss. -/
def storePriority : Store := fun uid f =>
  if uid = "api::tag.tag" then
    match f with
    | .byId raw => if raw = "7" then some ⟨7⟩ else none
    | .eqi fld v => if fld = "name" && v = "7" then some ⟨99⟩ else none
    | .containsi _ _ => none
    | .eq _ _ => none
  else none

/-- An entity store whose lookups always throw while create/update succeed. -/
def storeLookupThrows : EntityStore :=
  { findMany := fun _ _ => .error "DB down",
    create := fun _ _ => none,
    update := fun _ _ _ => none }

/-- An entity store where creating the row named "bad" throws. -/
def storeCreateFails : EntityStore :=
  { findMany := fun _ _ => .ok none,
    create := fun _ item =>
      if alGet item "name" = some (Value.vStr "bad") then some "Database error" else none,
    update := fun _ _ _ => none }

/-! ## Theorems -/

theorem alGet_alSet_self {α : Type} (l : List (String × α)) (k : String) (v : α) :
    alGet (alSet l k v) k = some v := by
  induction l with
  | nil => simp [alGet, alSet]
  | cons kv rest ih =>
    obtain ⟨k₀, v₀⟩ := kv
    by_cases h : k₀ = k
    · simp [alGet, alSet, h]
    · simp [alGet, alSet, h, ih]

theorem alGet_alSet_ne {α : Type} (l : List (String × α)) (k k' : String) (v : α)
    (h : k' ≠ k) : alGet (alSet l k v) k' = alGet l k' := by
  induction l with
  | nil => simp [alGet, alSet, Ne.symm h]
  | cons kv rest ih =>
    obtain ⟨k₀, v₀⟩ := kv
    by_cases hk : k₀ = k
    · subst hk
      simp [alGet, alSet, Ne.symm h]
    · simp [alGet, alSet, hk, ih]

theorem alGet_alDel_ne {α : Type} (l : List (String × α)) (k k' : String)
    (h : k' ≠ k) : alGet (alDel l k) k' = alGet l k' := by
  induction l with
  | nil => rfl
  | cons kv rest ih =>
    obtain ⟨k₀, v₀⟩ := kv
    by_cases hk : k₀ = k
    · subst hk
      simp [alGet, alDel, Ne.symm h, ih]
    · simp [alGet, alDel, hk, ih]

theorem alGet_alDel_self {α : Type} (l : List (String × α)) (k : String) :
    alGet (alDel l k) k = none := by
  induction l with
  | nil => rfl
  | cons kv rest ih =>
    obtain ⟨k₀, v₀⟩ := kv
    by_cases hk : k₀ = k
    · simp [alGet, alDel, hk, ih]
    · simp [alGet, alDel, hk, ih]

/-- `alSet` on an absent key appends the binding. -/
theorem alSet_of_not_mem {α : Type} (l : List (String × α)) (k : String) (v : α)
    (h : k ∉ l.map Prod.fst) : alSet l k v = l ++ [(k, v)] := by
  induction l with
  | nil => simp [alSet]
  | cons kv rest ih =>
    obtain ⟨k₀, v₀⟩ := kv
    simp only [List.map_cons, List.mem_cons] at h
    push_neg at h
    simp [alSet, Ne.symm h.1, ih h.2]

/-- Looking up a key that the cleanup predicate keeps is unaffected by the
removal of the temporary dot-notation capture keys. -/
theorem alGet_cleanupDotKeys (r : VRow) (f : String)
    (h : (jsStartsWith f "__" && jsEndsWith f "_dotNotation") = false) :
    alGet (cleanupDotKeys r) f = alGet r f := by
  induction r with
  | nil => rfl
  | cons kv rest ih =>
    obtain ⟨k₀, v₀⟩ := kv
    by_cases hp : (!(jsStartsWith k₀ "__" && jsEndsWith k₀ "_dotNotation")) = true
    · rw [show cleanupDotKeys ((k₀, v₀) :: rest) = (k₀, v₀) :: cleanupDotKeys rest from
        List.filter_cons_of_pos hp]
      by_cases hk : k₀ = f
      · simp [alGet, hk]
      · simp [alGet, hk, ih]
    · have hkept : (jsStartsWith k₀ "__" && jsEndsWith k₀ "_dotNotation") = true := by
        simpa using hp
      have hk : k₀ ≠ f := by
        intro he
        rw [he, h] at hkept
        exact Bool.false_ne_true hkept
      rw [show cleanupDotKeys ((k₀, v₀) :: rest) = cleanupDotKeys rest from
        List.filter_cons_of_neg (by simp [hkept])]
      rw [ih]
      simp [alGet, hk]

/-- The accumulator fold of one generated component entry equals the
specification's filterMap description, for distinct subfield keys. -/
theorem foldl_alSet_entry (i : Nat) (l : List (String × List String)) :
    ∀ acc : List (String × String),
      (∀ k ∈ l.map Prod.fst, k ∉ acc.map Prod.fst) →
      (l.map Prod.fst).Nodup →
      l.foldl (fun acc kv =>
        if kv.2.getD i "" ≠ "" then alSet acc kv.1 (kv.2.getD i "") else acc) acc
      = acc ++ componentEntrySpec l i := by
  induction l with
  | nil => intro acc _ _; simp [componentEntrySpec]
  | cons kv rest ih =>
    intro acc hdisj hnd
    obtain ⟨k, vs⟩ := kv
    simp only [List.map_cons, List.nodup_cons, List.mem_cons] at hdisj hnd
    have hk_acc : k ∉ acc.map Prod.fst := hdisj k (Or.inl rfl)
    have hdisj' : ∀ k' ∈ rest.map Prod.fst, k' ∉ acc.map Prod.fst :=
      fun k' hk' => hdisj k' (Or.inr hk')
    simp only [List.foldl_cons]
    by_cases hv : vs.getD i "" ≠ ""
    · rw [if_pos hv, alSet_of_not_mem acc k _ hk_acc]
      have hdisj'' : ∀ k' ∈ rest.map Prod.fst, k' ∉ (acc ++ [(k, vs.getD i "")]).map Prod.fst := by
        intro k' hk'
        simp only [List.map_append, List.mem_append, List.map_cons, List.map_nil,
          List.mem_singleton]
        rintro (hmem | hmem)
        · exact hdisj' k' hk' hmem
        · exact hnd.1 (hmem ▸ hk')
      rw [ih (acc ++ [(k, vs.getD i "")]) hdisj'' hnd.2]
      have hspec : componentEntrySpec ((k, vs) :: rest) i =
          (k, vs.getD i "") :: componentEntrySpec rest i := by
        simp only [componentEntrySpec, List.filterMap_cons]
        cases hgi : vs[i]? with
        | none => simp [List.getD, hgi] at hv
        | some seg =>
          have hseg : vs.getD i "" = seg := by simp [List.getD, hgi]
          rw [hseg] at hv ⊢
          simp [hgi, hv]
      rw [hspec]
      simp
    · rw [if_neg hv]
      rw [ih acc hdisj' hnd.2]
      have hspec : componentEntrySpec ((k, vs) :: rest) i = componentEntrySpec rest i := by
        simp only [componentEntrySpec, List.filterMap_cons]
        cases hgi : vs[i]? with
        | none => simp [hgi]
        | some seg =>
          have hseg : vs.getD i "" = seg := by simp [List.getD, hgi]
          rw [hseg] at hv
          push_neg at hv
          simp [hgi, hv]
      rw [hspec]

/-- A filterMap that keeps exactly the non-empty images is the filtered map. -/
theorem filterMap_ite_ne_nil {α : Type} [DecidableEq α] (g : Nat → List α) (l : List Nat) :
    l.filterMap (fun i => if g i ≠ [] then some (g i) else none) =
      (l.map g).filter (fun x => decide (x ≠ [])) := by
  induction l with
  | nil => rfl
  | cons a rest ih =>
    by_cases hg : g a = []
    · rw [show ((a :: rest).filterMap fun i => if g i ≠ [] then some (g i) else none) =
            (rest.filterMap fun i => if g i ≠ [] then some (g i) else none) from
          List.filterMap_cons_none (by simp [hg])]
      rw [List.map_cons,
        List.filter_cons_of_neg (by simp [hg]), ih]
    · rw [show ((a :: rest).filterMap fun i => if g i ≠ [] then some (g i) else none) =
            g a :: (rest.filterMap fun i => if g i ≠ [] then some (g i) else none) from
          List.filterMap_cons_some (by simp [hg])]
      rw [List.map_cons,
        List.filter_cons_of_pos (by simp [hg]), ih]

/-- C5: for a repeatable nested-record capture, `parseComponentRows` generates
entries per the longest comma-split length, entry `i` taking the `i`-th
segment of each subfield (omitted when the subfield's split is shorter or the
segment is empty), dropping entries with no populated subfields; in
particular `{street:"A,B", city:"X"}` yields exactly
`[{street:"A",city:"X"}, {street:"B"}]`. -/
theorem parseComponentRows_correct (componentData : List (String × String))
    (hnd : (componentData.map Prod.fst).Nodup) :
    parseComponentRows componentData = parseComponentRowsSpec componentData ∧
    parseComponentRows [("street", "A,B"), ("city", "X")] =
      [[("street", "A"), ("city", "X")], [("street", "B")]] := by
  refine ⟨?_, by rfl⟩
  by_cases hempty : componentData = []
  · simp [parseComponentRows, parseComponentRowsSpec, hempty]
  · simp only [parseComponentRows, parseComponentRowsSpec, if_neg hempty, List.foldl_map]
    rw [filterMap_ite_ne_nil]
    congr 1
    apply List.map_congr_left
    intro i _
    have hkeys : (componentData.map (fun kv => (kv.1, splitTrim kv.2))).map Prod.fst =
        componentData.map Prod.fst := by
      simp [List.map_map, Function.comp]
    have hnd' : ((componentData.map (fun kv => (kv.1, splitTrim kv.2))).map Prod.fst).Nodup := by
      rw [hkeys]; exact hnd
    have := foldl_alSet_entry i (componentData.map (fun kv => (kv.1, splitTrim kv.2)))
      [] (by simp) hnd'
    simpa [List.foldl_map] using this

/-- Closed witness for the hypotheses of `parseComponentRows_correct`. -/
theorem parseComponentRows_correct_witness :
    ((([("street", "A,B"), ("city", "X")] : List (String × String)).map Prod.fst).Nodup) ∧
    (parseComponentRows [("street", "A,B"), ("city", "X")] =
        parseComponentRowsSpec [("street", "A,B"), ("city", "X")] ∧
      parseComponentRows [("street", "A,B"), ("city", "X")] =
        [[("street", "A"), ("city", "X")], [("street", "B")]]) :=
  ⟨by decide, parseComponentRows_correct [("street", "A,B"), ("city", "X")] (by decide)⟩

/-- C6 counterexample: a component boolean subfield does **not** reject
invalid tokens — `convertComponentFieldValue` coerces the token "banana" to
the value `false` (and `processComponentData` stores it), where the claim
requires an error instead of a value. -/
theorem convertComponentFieldValue_bool_counterexample :
    convertComponentFieldValue p0 "banana" boolAttr = Value.vBool false ∧
    processComponentData p0 [] (fun _ _ => none) [("flag", "banana")] [("flag", boolAttr)] =
      some [("flag", Value.vBool false)] := by
  exact ⟨rfl, rfl⟩

/-- C6 (amended): a component boolean subfield coerces the case-insensitive
tokens true/1/yes to `true` and **every** other non-empty token — including
false/0/no and invalid tokens — to `false`; no token is rejected as an
error (this differs from top-level row validation, which errors on tokens
outside both sets). -/
theorem convertComponentFieldValue_bool (p : JsPrims) (value : String) (a : Attr)
    (ht : a.type = "boolean") (hv : value ≠ "") :
    (jsToLower value ∈ trueTokens →
      convertComponentFieldValue p value a = Value.vBool true) ∧
    (jsToLower value ∉ trueTokens →
      convertComponentFieldValue p value a = Value.vBool false) := by
  constructor
  · intro hmem
    simp [convertComponentFieldValue, hv, ht, trueTokens] at hmem ⊢
    rcases hmem with h | h | h <;> simp [h]
  · intro hmem
    simp [convertComponentFieldValue, hv, ht, trueTokens] at hmem ⊢
    simp [hmem.1, hmem.2.1, hmem.2.2]

/-- Closed witness for the hypotheses of `convertComponentFieldValue_bool`. -/
theorem convertComponentFieldValue_bool_witness :
    (boolAttr.type = "boolean" ∧ ("YES" : String) ≠ "") ∧
    (jsToLower "YES" ∈ trueTokens →
      convertComponentFieldValue p0 "YES" boolAttr = Value.vBool true) ∧
    (jsToLower "YES" ∉ trueTokens →
      convertComponentFieldValue p0 "YES" boolAttr = Value.vBool false) :=
  ⟨⟨rfl, by decide⟩, convertComponentFieldValue_bool p0 "YES" boolAttr rfl (by decide)⟩

/-- C2: in `findRelatedEntity`, when no explicit subfield is given and the
raw value passes the numeric check, the identifier lookup is attempted before
the common-field scan (its query heads the trace), so a store hit on the
identifier decides the result even when a `name` match exists elsewhere; and
when a declared explicit subfield is given, its query heads the trace,
preceding the numeric and common-field branches. -/
theorem findRelatedEntity_priority (p : JsPrims) (registry : Registry) (store : Store)
    (target value sf : String) (e : Entity) (schema : AttrMap)
    (hnum : p.numberNaN value = false) (hint : (jsParseInt10 value).isSome)
    (hid : store target (.byId value) = some e)
    (hsf : sf ≠ "") (hreg : alGet registry target = some schema)
    (hdecl : (alGet schema sf).isSome) :
    findRelatedEntity p registry store target value "" = some e ∧
    (findRelatedEntityT p registry store target value "").2.take 1 = [Filter.byId value] ∧
    (findRelatedEntityT p registry store target value sf).2.take 1 = [Filter.eqi sf value] := by
  have hrest : findRelatedEntityRestT p registry store target value = (some e, [.byId value]) := by
    unfold findRelatedEntityRestT
    simp [hnum, hint, hid]
  refine ⟨?_, ?_, ?_⟩
  · unfold findRelatedEntity findRelatedEntityT
    simp [hrest]
  · unfold findRelatedEntityT
    simp [hrest]
  · unfold findRelatedEntityT
    simp only [hreg, hdecl, hsf]
    have hdecl' : (if sf = "" then false
        else (match alGet registry target with
              | some schema => (alGet schema sf).isSome
              | none => false)) = true := by
      simp [hsf, hreg, hdecl]
    cases h1 : store target (.eqi sf value) with
    | some e1 => simp [hsf, hreg, hdecl]
    | none =>
      cases h2 : store target (.containsi sf value) with
      | some e2 => simp [hsf, hreg, hdecl, h1, h2]
      | none => simp [hsf, hreg, hdecl, h1, h2]

/-- Closed witness for the hypotheses of `findRelatedEntity_priority`: the
raw value "7" is numeric, `storePriority` answers the identifier query with
entity 7 (and would answer a name query with entity 99), and the tag schema
declares the subfield `code`. -/
theorem findRelatedEntity_priority_witness :
    (p0.numberNaN "7" = false ∧ (jsParseInt10 "7").isSome ∧
      storePriority "api::tag.tag" (.byId "7") = some ⟨7⟩ ∧
      storePriority "api::tag.tag" (.eqi "name" "7") = some ⟨99⟩) ∧
    (findRelatedEntity p0 registryTag storePriority "api::tag.tag" "7" "" = some ⟨7⟩ ∧
      (findRelatedEntityT p0 registryTag storePriority "api::tag.tag" "7" "").2.take 1 =
        [Filter.byId "7"] ∧
      (findRelatedEntityT p0 registryTag storePriority "api::tag.tag" "7" "code").2.take 1 =
        [Filter.eqi "code" "7"]) :=
  ⟨⟨rfl, rfl, rfl, rfl⟩,
    findRelatedEntity_priority p0 registryTag storePriority "api::tag.tag" "7" "code" ⟨7⟩
      [("code", strAttrUnique), ("name", strAttr)] rfl rfl rfl (by decide) rfl rfl⟩

/-- C3 counterexample: with the explicit declared subfield `code`, both the
exact and the contains lookups on `code` miss, yet `findRelatedEntity` does
**not** report "not found": it falls through to the identifier branch and
returns entity 7. -/
theorem findRelatedEntity_subfield_counterexample :
    (alGet [("code", strAttrUnique), ("name", strAttr)] "code").isSome = true ∧
    storePriority "api::tag.tag" (.eqi "code" "7") = none ∧
    storePriority "api::tag.tag" (.containsi "code" "7") = none ∧
    findRelatedEntity p0 registryTag storePriority "api::tag.tag" "7" "code" = some ⟨7⟩ :=
  ⟨rfl, rfl, rfl, rfl⟩

/-- C3 (amended): when an explicit subfield is given and the target schema
declares it, the exact case-insensitive match is tried first, then the
contains match, and the first hit of either is returned; when **both** miss,
the lookup does not return "not found" but falls through to the identifier
and common-field branches (which also run, unchanged, in the else case where
no declared explicit subfield was given). -/
theorem findRelatedEntity_subfield_behavior (p : JsPrims) (registry : Registry)
    (store : Store) (target value sf : String) (schema : AttrMap)
    (hsf : sf ≠ "") (hreg : alGet registry target = some schema)
    (hdecl : (alGet schema sf).isSome) :
    (∀ e, store target (.eqi sf value) = some e →
      findRelatedEntity p registry store target value sf = some e) ∧
    (store target (.eqi sf value) = none → ∀ e,
      store target (.containsi sf value) = some e →
      findRelatedEntity p registry store target value sf = some e) ∧
    (store target (.eqi sf value) = none →
      store target (.containsi sf value) = none →
      findRelatedEntity p registry store target value sf =
        (findRelatedEntityRestT p registry store target value).1) ∧
    findRelatedEntity p registry store target value "" =
      (findRelatedEntityRestT p registry store target value).1 := by
  refine ⟨?_, ?_, ?_, ?_⟩
  · intro e h1
    unfold findRelatedEntity findRelatedEntityT
    simp [hsf, hreg, hdecl, h1]
  · intro h1 e h2
    unfold findRelatedEntity findRelatedEntityT
    simp [hsf, hreg, hdecl, h1, h2]
  · intro h1 h2
    unfold findRelatedEntity findRelatedEntityT
    simp [hsf, hreg, hdecl, h1, h2]
  · unfold findRelatedEntity findRelatedEntityT
    simp

/-- Closed witness for the hypotheses of `findRelatedEntity_subfield_behavior`. -/
theorem findRelatedEntity_subfield_behavior_witness :
    (("code" : String) ≠ "" ∧
      alGet registryTag "api::tag.tag" = some [("code", strAttrUnique), ("name", strAttr)] ∧
      (alGet [("code", strAttrUnique), ("name", strAttr)] "code").isSome) ∧
    (storePriority "api::tag.tag" (.eqi "code" "7") = none →
      storePriority "api::tag.tag" (.containsi "code" "7") = none →
      findRelatedEntity p0 registryTag storePriority "api::tag.tag" "7" "code" =
        (findRelatedEntityRestT p0 registryTag storePriority "api::tag.tag" "7").1) :=
  ⟨⟨by decide, rfl, rfl⟩,
    (findRelatedEntity_subfield_behavior p0 registryTag storePriority "api::tag.tag" "7" "code"
      [("code", strAttrUnique), ("name", strAttr)] (by decide) rfl rfl).2.2.1⟩

theorem length_filter_add_length_filter_not {α : Type} (l : List α) (p : α → Bool) :
    (l.filter p).length + (l.filter (fun a => !p a)).length = l.length := by
  induction l with
  | nil => rfl
  | cons a rest ih =>
    by_cases h : p a = true
    · rw [List.filter_cons_of_pos h, List.filter_cons_of_neg (by simp [h])]
      simp only [List.length_cons]
      omega
    · rw [List.filter_cons_of_neg (by simpa using h),
        List.filter_cons_of_pos (by simp [Bool.not_eq_true] at h; simp [h])]
      simp only [List.length_cons]
      omega

/-- C1 counterexample: a file whose headers miss the required `name` column
gets the joint missing-required-fields error, but `validateCsvData` still
processes its rows — `validData` is non-empty, where the claim requires both
`validData` and `invalidRows` to be empty. -/
theorem validateCsvData_missing_required_counterexample :
    ("Missing required fields: name") ∈
      (validateCsvData p0 [] [[("code", "IN")]] countryAttrs).errors ∧
    (validateCsvData p0 [] [[("code", "IN")]] countryAttrs).validData =
      [[("code", Value.vStr "IN")]] := by
  exact ⟨by decide, rfl⟩

/-- C1 (amended): when the header mapping leaves required attributes without
defaults unsatisfied, `validateCsvData` reports the joint
missing-required-fields error (so its `errors` are non-empty and callers
reject the import), but it does not stop before row processing: every input
row is still validated and lands in `validData` or `invalidRows`; only the
empty-file check returns with zero rows processed. -/
theorem validateCsvData_missing_required (p : JsPrims) (registry : Registry)
    (firstRow : Row) (rest : List Row) (attributes : AttrMap)
    (hmiss : missingRequiredFields (firstRow.map Prod.fst) attributes ≠ []) :
    ("Missing required fields: " ++
        joinSep ", " (missingRequiredFields (firstRow.map Prod.fst) attributes))
      ∈ (validateCsvData p registry (firstRow :: rest) attributes).errors ∧
    (validateCsvData p registry (firstRow :: rest) attributes).errors ≠ [] ∧
    (validateCsvData p registry (firstRow :: rest) attributes).validData.length +
        (validateCsvData p registry (firstRow :: rest) attributes).invalidRows.length =
      (firstRow :: rest).length := by
  have hmem : ("Missing required fields: " ++
      joinSep ", " (missingRequiredFields (firstRow.map Prod.fst) attributes))
      ∈ (validateCsvData p registry (firstRow :: rest) attributes).errors := by
    unfold validateCsvData
    simp [hmiss]
  refine ⟨hmem, List.ne_nil_of_mem hmem, ?_⟩
  unfold validateCsvData
  simp only [List.length_map]
  rw [length_filter_add_length_filter_not]
  simp

/-- Closed witness for the hypotheses of `validateCsvData_missing_required`. -/
theorem validateCsvData_missing_required_witness :
    missingRequiredFields (([("code", "IN")] : Row).map Prod.fst) countryAttrs ≠ [] ∧
    (("Missing required fields: " ++
        joinSep ", " (missingRequiredFields (([("code", "IN")] : Row).map Prod.fst) countryAttrs))
      ∈ (validateCsvData p0 [] [[("code", "IN")]] countryAttrs).errors ∧
    (validateCsvData p0 [] [[("code", "IN")]] countryAttrs).errors ≠ [] ∧
    (validateCsvData p0 [] [[("code", "IN")]] countryAttrs).validData.length +
        (validateCsvData p0 [] [[("code", "IN")]] countryAttrs).invalidRows.length =
      ([[("code", "IN")]] : List Row).length) :=
  ⟨by decide, validateCsvData_missing_required p0 [] [("code", "IN")] [] countryAttrs (by decide)⟩

/-- C7: for a present cell of a plain valid header targeting a boolean
attribute, `validateCsvData`'s cell step matches case-insensitively —
true/1/yes store `true`, false/0/no store `false`, and any other token adds
the row error `"<field>" must be true/false, 1/0, or yes/no` while storing
no value; end to end, "YES" validates to `true` and "banana" invalidates its
row with exactly that error. -/
theorem processCell_boolean (p : JsPrims) (attributes : AttrMap)
    (headerMapping : List (String × HeaderMapping)) (index : Nat)
    (vr : VRow) (errs : List String) (h f value : String) (a : Attr)
    (hmap : alGet headerMapping h = some { field := f, isValid := true })
    (hattr : alGet attributes f = some a)
    (ht : a.type = "boolean") (hv : value ≠ "") :
    (jsToLower value ∈ trueTokens →
      processCell p attributes headerMapping index (vr, errs) (h, value) =
        (alSet vr f (.vBool true), errs)) ∧
    (jsToLower value ∈ (["false", "0", "no"] : List String) →
      processCell p attributes headerMapping index (vr, errs) (h, value) =
        (alSet vr f (.vBool false), errs)) ∧
    (jsToLower value ∉ boolTokens →
      processCell p attributes headerMapping index (vr, errs) (h, value) =
        (vr, errs ++ ["Row " ++ toString (index + 1) ++ ": \"" ++ f ++
          "\" must be true/false, 1/0, or yes/no"])) ∧
    validateCsvData p0 []
        [[("name", "x"), ("active", "YES")], [("name", "y"), ("active", "banana")]]
        companyAttrs =
      { errors := ["Row 2: \"active\" must be true/false, 1/0, or yes/no"],
        warnings := [],
        validData := [[("name", Value.vStr "x"), ("active", Value.vBool true)]],
        invalidRows := [{ data := [("name", Value.vStr "y")],
                          errors := ["Row 2: \"active\" must be true/false, 1/0, or yes/no"],
                          originalRow := [("name", "y"), ("active", "banana")] }] } := by
  refine ⟨?_, ?_, ?_, by rfl⟩
  · intro hmem
    simp only [trueTokens, List.mem_cons, List.mem_singleton, List.not_mem_nil, or_false]
      at hmem
    rcases hmem with hx | hx | hx <;>
      simp [processCell, hmap, hattr, ht, hv, hx, boolTokens, trueTokens]
  · intro hmem
    simp only [List.mem_cons, List.mem_singleton, List.not_mem_nil, or_false] at hmem
    rcases hmem with hx | hx | hx <;>
      simp [processCell, hmap, hattr, ht, hv, hx, boolTokens, trueTokens]
  · intro hmem
    simp [processCell, hmap, hattr, ht, hv, hmem]

/-- Closed witness for the hypotheses of `processCell_boolean`. -/
theorem processCell_boolean_witness :
    (alGet [("active", ({ field := "active", isValid := true } : HeaderMapping))] "active" =
        some { field := "active", isValid := true } ∧
      alGet companyAttrs "active" = some boolAttr ∧
      boolAttr.type = "boolean" ∧ ("YES" : String) ≠ "") ∧
    ((jsToLower "YES" ∈ trueTokens →
      processCell p0 companyAttrs
          [("active", { field := "active", isValid := true })] 0 ([], []) ("active", "YES") =
        (alSet [] "active" (Value.vBool true), [])) ∧
    (jsToLower "YES" ∈ (["false", "0", "no"] : List String) →
      processCell p0 companyAttrs
          [("active", { field := "active", isValid := true })] 0 ([], []) ("active", "YES") =
        (alSet [] "active" (Value.vBool false), [])) ∧
    (jsToLower "YES" ∉ boolTokens →
      processCell p0 companyAttrs
          [("active", { field := "active", isValid := true })] 0 ([], []) ("active", "YES") =
        ([], [] ++ ["Row " ++ toString (0 + 1) ++ ": \"" ++ "active" ++
          "\" must be true/false, 1/0, or yes/no"])) ∧
    validateCsvData p0 []
        [[("name", "x"), ("active", "YES")], [("name", "y"), ("active", "banana")]]
        companyAttrs =
      { errors := ["Row 2: \"active\" must be true/false, 1/0, or yes/no"],
        warnings := [],
        validData := [[("name", Value.vStr "x"), ("active", Value.vBool true)]],
        invalidRows := [{ data := [("name", Value.vStr "y")],
                          errors := ["Row 2: \"active\" must be true/false, 1/0, or yes/no"],
                          originalRow := [("name", "y"), ("active", "banana")] }] }) :=
  ⟨⟨rfl, rfl, rfl, by decide⟩,
    processCell_boolean p0 companyAttrs
      [("active", { field := "active", isValid := true })] 0 [] [] "active" "active" "YES"
      boolAttr rfl rfl rfl (by decide)⟩

/-- C10: for a valid dotted relation header, the cell step of
`validateCsvData` writes both the side-channel capture
`__<field>_dotNotation = {relationField, value}` **and** the plain target
field with the raw string value; end to end, the validated row for header
`country.name = "India"` carries `country = "India"` alongside the capture. -/
theorem processCell_relation_dotted (p : JsPrims) (attributes : AttrMap)
    (headerMapping : List (String × HeaderMapping)) (index : Nat)
    (vr : VRow) (errs : List String) (h f s value : String) (a : Attr)
    (hmap : alGet headerMapping h =
      some { field := f, relationField := s, isDotted := true, isValid := true })
    (hattr : alGet attributes f = some a)
    (ht : a.type = "relation") (hv : value ≠ "") :
    processCell p attributes headerMapping index (vr, errs) (h, value) =
      (alSet (alSet vr ("__" ++ f ++ "_dotNotation") (Value.vDotCapture s value)) f
        (Value.vStr value), errs) ∧
    (validateCsvData p0 registryCountry
        [[("name", "ACME"), ("country.name", "India")]] companyRelAttrs).validData =
      [[("name", Value.vStr "ACME"),
        ("__country_dotNotation", Value.vDotCapture "name" "India"),
        ("country", Value.vStr "India")]] := by
  refine ⟨?_, by rfl⟩
  simp [processCell, hmap, hattr, ht, hv]

/-- Closed witness for the hypotheses of `processCell_relation_dotted`. -/
theorem processCell_relation_dotted_witness :
    (alGet [("country.name",
        ({ field := "country", relationField := "name", isDotted := true,
           isValid := true } : HeaderMapping))] "country.name" =
      some { field := "country", relationField := "name", isDotted := true,
             isValid := true } ∧
      (alGet companyRelAttrs "country").isSome ∧ ("India" : String) ≠ "") ∧
    (processCell p0 companyRelAttrs
        [("country.name", { field := "country", relationField := "name",
                            isDotted := true, isValid := true })]
        0 ([], []) ("country.name", "India") =
      (alSet (alSet [] ("__" ++ "country" ++ "_dotNotation")
          (Value.vDotCapture "name" "India")) "country" (Value.vStr "India"), []) ∧
    (validateCsvData p0 registryCountry
        [[("name", "ACME"), ("country.name", "India")]] companyRelAttrs).validData =
      [[("name", Value.vStr "ACME"),
        ("__country_dotNotation", Value.vDotCapture "name" "India"),
        ("country", Value.vStr "India")]]) :=
  ⟨⟨rfl, rfl, by decide⟩,
    processCell_relation_dotted p0 companyRelAttrs
      [("country.name", { field := "country", relationField := "name",
                          isDotted := true, isValid := true })]
      0 [] [] "country.name" "country" "name" "India"
      { type := "relation", relation := "manyToOne", target := "api::country.country" }
      rfl rfl rfl (by decide)⟩

/-- `processRelationAttr` writes or deletes only its own field key. -/
theorem processRelationAttr_alGet_ne (p : JsPrims) (registry : Registry) (store : Store)
    (row : VRow) (g : String) (a : Attr) (pr : VRow) (f : String) (hne : g ≠ f) :
    alGet (processRelationAttr p registry store row g a pr) f = alGet pr f := by
  unfold processRelationAttr
  cases hrv : relationRawValue row g with
  | none => rfl
  | some vs =>
    obtain ⟨rv, sf⟩ := vs
    dsimp only
    split
    · split
      · exact alGet_alSet_ne pr g f _ (Ne.symm hne)
      · exact alGet_alDel_ne pr g f (Ne.symm hne)
    · split
      · split
        · exact alGet_alSet_ne pr g f _ (Ne.symm hne)
        · exact alGet_alDel_ne pr g f (Ne.symm hne)
      · rfl

/-- The relation-attribute fold of `processRelationsRow` leaves keys of
attributes outside the fold untouched. -/
theorem foldl_relAttrs_alGet_ne (p : JsPrims) (registry : Registry) (store : Store)
    (row : VRow) (f : String) :
    ∀ (l : AttrMap) (pr : VRow), f ∉ l.map Prod.fst →
      alGet (l.foldl (fun pr fa =>
        if fa.2.type = "relation" then processRelationAttr p registry store row fa.1 fa.2 pr
        else pr) pr) f = alGet pr f := by
  intro l
  induction l with
  | nil => intro pr _; rfl
  | cons fa rest ih =>
    intro pr hf
    simp only [List.map_cons, List.mem_cons] at hf
    push_neg at hf
    simp only [List.foldl_cons]
    rw [ih _ hf.2]
    by_cases ht : fa.2.type = "relation"
    · rw [if_pos ht]
      exact processRelationAttr_alGet_ne p registry store row fa.1 fa.2 pr f (Ne.symm hf.1)
    · rw [if_neg ht]

/-- C4: for a one-to-many or many-to-many relation attribute with a raw
relation value present, `processRelations` comma-splits the raw value
(trimming each segment), resolves each segment independently, and sets the
target field to the list of found identifiers in input order (unresolved
segments skipped); when nothing resolves the field is absent from the
processed row; the raw value "tag1,tag2" resolving to entities 1 and 2
yields the list [1, 2] in that order. -/
theorem processRelations_multi (p : JsPrims) (registry : Registry) (store : Store)
    (attributes : AttrMap) (row : VRow) (f raw sf : String) (a : Attr)
    (hnd : (attributes.map Prod.fst).Nodup)
    (hmem : (f, a) ∈ attributes)
    (ht : a.type = "relation")
    (hrel : a.relation = "oneToMany" ∨ a.relation = "manyToMany")
    (hraw : relationRawValue row f = some (raw, sf))
    (hkeep : (jsStartsWith f "__" && jsEndsWith f "_dotNotation") = false) :
    (alGet (processRelationsRow p registry store attributes row) f =
      if ((splitTrim raw).filterMap
            (fun v => findRelatedEntity p registry store a.target v sf)) = []
      then none
      else some (Value.vIdList (((splitTrim raw).filterMap
            (fun v => findRelatedEntity p registry store a.target v sf)).map (·.id)))) ∧
    processRelations p0 registryTag storeTags
        [[("tags", Value.vStr "tag1,tag2")]] tagsAttrs =
      [[("tags", Value.vIdList [1, 2])]] := by
  refine ⟨?_, by rfl⟩
  obtain ⟨l₁, l₂, rfl⟩ := List.append_of_mem hmem
  rw [List.map_append, List.map_cons] at hnd
  have hnd' := List.nodup_append.mp hnd
  have hf2 : f ∉ l₂.map Prod.fst := (List.nodup_cons.mp hnd'.2.1).1
  unfold processRelationsRow
  rw [alGet_cleanupDotKeys _ _ hkeep]
  rw [List.foldl_append, List.foldl_cons]
  rw [foldl_relAttrs_alGet_ne p registry store row f l₂ _ hf2]
  dsimp only
  rw [if_pos ht]
  unfold processRelationAttr
  rw [hraw]
  dsimp only
  rcases hrel with h | h
  · rw [h]
    rw [if_neg (show ¬((decide (("oneToMany" : String) = "oneToOne") ||
        decide (("oneToMany" : String) = "manyToOne")) = true) by decide)]
    rw [if_pos (show ((decide (("oneToMany" : String) = "oneToMany") ||
        decide (("oneToMany" : String) = "manyToMany")) = true) by decide)]
    by_cases hne : (splitTrim raw).filterMap
        (fun v => findRelatedEntity p registry store a.target v sf) = []
    · rw [if_neg (fun hcon => hcon hne), if_pos hne, alGet_alDel_self]
    · rw [if_pos hne, if_neg hne, alGet_alSet_self]
  · rw [h]
    rw [if_neg (show ¬((decide (("manyToMany" : String) = "oneToOne") ||
        decide (("manyToMany" : String) = "manyToOne")) = true) by decide)]
    rw [if_pos (show ((decide (("manyToMany" : String) = "oneToMany") ||
        decide (("manyToMany" : String) = "manyToMany")) = true) by decide)]
    by_cases hne : (splitTrim raw).filterMap
        (fun v => findRelatedEntity p registry store a.target v sf) = []
    · rw [if_neg (fun hcon => hcon hne), if_pos hne, alGet_alDel_self]
    · rw [if_pos hne, if_neg hne, alGet_alSet_self]

/-- Closed witness for the hypotheses of `processRelations_multi`. -/
theorem processRelations_multi_witness :
    ((tagsAttrs.map Prod.fst).Nodup ∧
      relationRawValue [("tags", Value.vStr "tag1,tag2")] "tags" =
        some ("tag1,tag2", "")) ∧
    ((alGet (processRelationsRow p0 registryTag storeTags tagsAttrs
          [("tags", Value.vStr "tag1,tag2")]) "tags" =
        if ((splitTrim "tag1,tag2").filterMap
              (fun v => findRelatedEntity p0 registryTag storeTags
                ({ type := "relation", relation := "manyToMany",
                   target := "api::tag.tag" } : Attr).target v "")) = []
        then none
        else some (Value.vIdList (((splitTrim "tag1,tag2").filterMap
              (fun v => findRelatedEntity p0 registryTag storeTags
                ({ type := "relation", relation := "manyToMany",
                   target := "api::tag.tag" } : Attr).target v "")).map (·.id)))) ∧
      processRelations p0 registryTag storeTags
          [[("tags", Value.vStr "tag1,tag2")]] tagsAttrs =
        [[("tags", Value.vIdList [1, 2])]]) :=
  ⟨⟨by decide, rfl⟩,
    processRelations_multi p0 registryTag storeTags tagsAttrs
      [("tags", Value.vStr "tag1,tag2")] "tags" "tag1,tag2" ""
      { type := "relation", relation := "manyToMany", target := "api::tag.tag" }
      (by decide) (by decide) rfl (Or.inr rfl) rfl (by decide)⟩

/-- With positive batch size, the batch slices flatten back to the input. -/
theorem chunksAux_flatten {α : Type} (b : Nat) (hb : 1 ≤ b) :
    ∀ (fuel : Nat) (l : List α), l.length ≤ fuel → (chunksAux b fuel l).flatten = l := by
  intro fuel
  induction fuel with
  | zero =>
    intro l hl
    cases l with
    | nil => rfl
    | cons x xs => simp at hl
  | succ n ih =>
    intro l hl
    cases l with
    | nil => rfl
    | cons x xs =>
      show ((x :: xs).take b :: chunksAux b n ((x :: xs).drop b)).flatten = x :: xs
      rw [List.flatten_cons]
      rw [ih ((x :: xs).drop b) (by
        rw [List.length_drop]
        simp only [List.length_cons] at hl ⊢
        omega)]
      exact List.take_append_drop b (x :: xs)

/-- `chunks` is flattening-invariant for positive batch sizes. -/
theorem chunks_flatten {α : Type} (b : Nat) (l : List α) (hb : 1 ≤ b) :
    (chunks b l).flatten = l :=
  chunksAux_flatten b hb l.length l le_rfl

/-- Folding batch-wise is folding over the flattened batches. -/
theorem foldl_batches {α β : Type} (f : β → α → β) :
    ∀ (chunked : List (List α)) (init : β),
      chunked.foldl (fun acc batch => batch.foldl f acc) init =
        chunked.flatten.foldl f init := by
  intro chunked
  induction chunked with
  | nil => intro init; rfl
  | cons batch rest ih =>
    intro init
    rw [List.foldl_cons, List.flatten_cons, List.foldl_append]
    exact ih _

/-- `importData` is the plain fold of `processItem` over the rows, in input
order, for any positive batch size. -/
theorem importData_eq_foldl (store : EntityStore) (uid : String) (validData : List VRow)
    (opts : ImportOptions) (hb : 1 ≤ opts.batchSize) :
    importData store uid validData opts =
      validData.foldl (processItem store uid opts) ({}, []) := by
  unfold importData
  rw [foldl_batches, chunks_flatten opts.batchSize validData hb]

/-- The results component of one `processItem` step is determined by the
row's fate. -/
theorem processItem_fst (store : EntityStore) (uid : String) (opts : ImportOptions)
    (acc : ImportResults × List StoreCall) (item0 : VRow) :
    (processItem store uid opts acc item0).1 =
      (match rowFate store uid opts (processedImportItem opts item0) with
       | .createdRow => { acc.1 with created := acc.1.created + 1 }
       | .updatedRow => { acc.1 with updated := acc.1.updated + 1 }
       | .failedRow msg =>
         { acc.1 with errors := acc.1.errors ++ [(processedImportItem opts item0, msg)] }) := by
  unfold processItem rowFate processedImportItem
  dsimp only
  repeat' split
  all_goals first | rfl | simp_all

/-- Folding `processItem` accumulates exactly the per-row fates. -/
theorem foldl_processItem_results (store : EntityStore) (uid : String)
    (opts : ImportOptions) :
    ∀ (l : List VRow) (acc : ImportResults × List StoreCall),
      (l.foldl (processItem store uid opts) acc).1 =
        { created := acc.1.created +
            ((l.map (processedImportItem opts)).map (rowFate store uid opts)).count
              .createdRow,
          updated := acc.1.updated +
            ((l.map (processedImportItem opts)).map (rowFate store uid opts)).count
              .updatedRow,
          errors := acc.1.errors ++ (l.map (processedImportItem opts)).filterMap
            (fun item =>
              match rowFate store uid opts item with
              | .failedRow msg => some (item, msg)
              | _ => none) } := by
  intro l
  induction l with
  | nil =>
    intro acc
    simp
  | cons x rest ih =>
    intro acc
    rw [List.foldl_cons, ih, processItem_fst]
    cases hf : rowFate store uid opts (processedImportItem opts x) <;>
      simp [hf, List.count_cons, List.filterMap_cons] <;> omega

/-- C8 counterexample: an exception thrown during the upsert **lookup** is
caught inside `findExistingRecord` and treated as "no match" — the row falls
through to a successful create, so the outcome's error list stays empty and
carries neither the row nor the lookup error message "DB down". -/
theorem importData_lookup_exception_counterexample :
    storeLookupThrows.findMany "api::country.country"
        (.eq "id" (Value.vInt 5)) = .error "DB down" ∧
    importData storeLookupThrows "api::country.country" [[("id", Value.vInt 5)]]
        { upsert := true } =
      ({ created := 1, updated := 0, errors := [] },
       [StoreCall.findCall "api::country.country" "id" (Value.vInt 5),
        StoreCall.createCall "api::country.country" [("id", Value.vInt 5)]]) :=
  ⟨rfl, rfl⟩

/-- C8 (amended): `importData` aggregates the per-row persistence fates in
input order for every positive batch size — an exception thrown by a row's
create or update call is caught and appended to the outcome's error list as
`{row, message}`, processing continues with the next row, and the
created/updated counters only count rows whose persistence call succeeded;
an exception during the upsert lookup is caught inside `findExistingRecord`
and treated as "no match" (the row proceeds to create), not appended. -/
theorem importData_results_spec (store : EntityStore) (uid : String)
    (validData : List VRow) (opts : ImportOptions) (hb : 1 ≤ opts.batchSize) :
    (importData store uid validData opts).1 = importSpec store uid opts validData := by
  rw [importData_eq_foldl store uid validData opts hb, foldl_processItem_results]
  unfold importSpec
  simp

/-- Closed witness for the hypotheses of `importData_results_spec`: one row
creates successfully, the row named "bad" throws on create and is reported. -/
theorem importData_results_spec_witness :
    1 ≤ ({} : ImportOptions).batchSize ∧
    (importData storeCreateFails "api::country.country"
        [[("name", Value.vStr "good")], [("name", Value.vStr "bad")]] {}).1 =
      importSpec storeCreateFails "api::country.country" {}
        [[("name", Value.vStr "good")], [("name", Value.vStr "bad")]] :=
  ⟨by decide,
    importData_results_spec storeCreateFails "api::country.country"
      [[("name", Value.vStr "good")], [("name", Value.vStr "bad")]] {} (by decide)⟩

/-- `processItem` never reads `batchSize`. -/
theorem processItem_batchSize_irrelevant (store : EntityStore) (uid : String)
    (opts : ImportOptions) (b₁ b₂ : Nat) :
    processItem store uid { opts with batchSize := b₁ } =
      processItem store uid { opts with batchSize := b₂ } := rfl

/-- C9: for any two positive batch sizes and otherwise fixed options,
`importData` produces the same results object (created and updated counts
and per-row errors in the same order) **and** the same trace of per-row
persistence calls in input order — `batchSize` only chunks the iteration. -/
theorem importData_batchSize_irrelevant (store : EntityStore) (uid : String)
    (validData : List VRow) (opts : ImportOptions) (b₁ b₂ : Nat)
    (h₁ : 1 ≤ b₁) (h₂ : 1 ≤ b₂) :
    importData store uid validData { opts with batchSize := b₁ } =
      importData store uid validData { opts with batchSize := b₂ } := by
  rw [importData_eq_foldl store uid validData { opts with batchSize := b₁ } h₁,
    importData_eq_foldl store uid validData { opts with batchSize := b₂ } h₂,
    processItem_batchSize_irrelevant store uid opts b₁ b₂]

/-- Closed witness for the hypotheses of `importData_batchSize_irrelevant`. -/
theorem importData_batchSize_irrelevant_witness :
    (1 ≤ 2 ∧ 1 ≤ 5) ∧
    importData storeCreateFails "api::country.country"
        [[("name", Value.vStr "a")], [("name", Value.vStr "bad")],
         [("name", Value.vStr "c")]] { batchSize := 2 } =
      importData storeCreateFails "api::country.country"
        [[("name", Value.vStr "a")], [("name", Value.vStr "bad")],
         [("name", Value.vStr "c")]] { batchSize := 5 } :=
  ⟨⟨by decide, by decide⟩,
    importData_batchSize_irrelevant storeCreateFails "api::country.country"
      [[("name", Value.vStr "a")], [("name", Value.vStr "bad")],
       [("name", Value.vStr "c")]] {} 2 5 (by decide) (by decide)⟩

end CsvImport
